import Mathlib

/-!
# Verification of `genwav.py` against its specification

Shallow embedding of the tone-wave generator script `genwav.py`
(classes `WaveWriter` and `WaveGenerator`, the `gen_*_tone` drivers and
`main`) into Lean 4, with the real-number samples modelled by exact
rationals `ℚ`, machine integers by `ℤ`/`ℕ`, byte strings by `List ℕ`,
and the Python generators (lazy sample sequences) by `ℕ → ℚ` when they
are infinite and by `List ℚ` (plus an explicit crash flag for an escaped
exception) when they are finite.
-/

namespace Genwav

/-- Python's `int()` applied to a (real) number: truncation toward zero.
Used for `int(self.framerate * duration)` and the oscillator period
computations. -/
def pyInt (q : ℚ) : ℤ :=
  if 0 ≤ q then ⌊q⌋ else -⌊-q⌋

/-! ## `WaveWriter`: the RIFF/WAVE container writer -/

/-- Bytes of an ASCII tag such as `'RIFF'`, as written by `fp.write` /
`struct.pack('4s', ...)`. -/
def strBytes (s : List Char) : List ℕ :=
  s.map Char.toNat

/-- Model of `struct.pack('<h', v)` for the non-negative in-range values the header
uses: two bytes, little endian. -/
def le16 (v : ℕ) : List ℕ :=
  [v % 256, v / 256 % 256]

/-- Model of `struct.pack('<l', v)` for the non-negative in-range values the header
uses: four bytes, little endian. -/
def le32 (v : ℕ) : List ℕ :=
  [v % 256, v / 256 % 256, v / 256 ^ 2 % 256, v / 256 ^ 3 % 256]

/-- Model of `WaveWriter._write_header(nchannels, sampwidth, framerate, nframes)`:
the 44 header bytes `'RIFF'` + `struct.pack('<l4s4slhhllhh4sl', 36+datalen,
'WAVE', 'fmt ', 16, 0x0001, nchannels, framerate,
nchannels*sampwidth*framerate, nchannels*sampwidth, sampwidth*8, 'data',
datalen)` with `datalen = nchannels * sampwidth * nframes`. -/
def writeHeader (nchannels sampwidth framerate nframes : ℕ) : List ℕ :=
  let datalen := nchannels * sampwidth * nframes
  strBytes ['R', 'I', 'F', 'F'] ++ le32 (36 + datalen) ++
    strBytes ['W', 'A', 'V', 'E'] ++ strBytes ['f', 'm', 't', ' '] ++
    le32 16 ++ le16 1 ++ le16 nchannels ++ le32 framerate ++
    le32 (nchannels * sampwidth * framerate) ++
    le16 (nchannels * sampwidth) ++ le16 (sampwidth * 8) ++
    strBytes ['d', 'a', 't', 'a'] ++ le32 datalen

/-- State of a `WaveWriter` object together with the contents of the file
it has written (`fp` is modelled as the byte list `fileBytes`; the writer
only ever seeks back to offset 0 in `close`). -/
structure WaveWriter where
  nchannels : ℕ
  sampwidth : ℕ
  framerate : ℕ
  nframes : Option ℕ
  nframeswritten : ℕ
  fileBytes : List ℕ
deriving DecidableEq, Repr

/-- Model of `WaveWriter.__init__`: if `nframes is None`, a placeholder header
`_write_header(0, 0, 0, 0)` is written immediately; otherwise the real
header is written immediately. -/
def WaveWriter.init (nchannels sampwidth framerate : ℕ) (nframes : Option ℕ) :
    WaveWriter :=
  { nchannels := nchannels
    sampwidth := sampwidth
    framerate := framerate
    nframes := nframes
    nframeswritten := 0
    fileBytes :=
      match nframes with
      | none => writeHeader 0 0 0 0
      | some n => writeHeader nchannels sampwidth framerate n }

/-- The scaling factor chosen in `__init__`: `255.0` for 1-byte samples,
`32767.0` otherwise. -/
def WaveWriter.ratio (w : WaveWriter) : ℚ :=
  if w.sampwidth = 1 then 255 else 32767

/-- Model of `array.array('b'/'h', [v]).tostring()`: little-endian two's-complement
bytes of one sample of width `sampwidth` (1 byte for `'b'`, 2 bytes for
`'h'`); in-range values are assumed (`array.array` raises `OverflowError`
otherwise). -/
def encodeSample (sampwidth : ℕ) (v : ℤ) : List ℕ :=
  if sampwidth = 1 then [(v % 256).toNat]
  else [((v % 65536) % 256).toNat, ((v % 65536) / 256).toNat]

/-- Model of `WaveWriter.writeraw(bytes)`: append the bytes to the file and advance
the frame counter by `len(bytes) / sampwidth` (Python 2 integer floor
division). -/
def WaveWriter.writeraw (w : WaveWriter) (bytes : List ℕ) : WaveWriter :=
  { w with
    fileBytes := w.fileBytes ++ bytes
    nframeswritten := w.nframeswritten + bytes.length / w.sampwidth }

/-- Model of `WaveWriter.write(frames)` (requires `nchannels == 1` by the source's
`assert`): scale each float sample by `ratio`, truncate with `int()`,
pack little endian, and `writeraw` the result. -/
def WaveWriter.write (w : WaveWriter) (frames : List ℚ) : WaveWriter :=
  w.writeraw ((frames.map fun x => pyInt (x * w.ratio)).flatMap
    (encodeSample w.sampwidth))

/-- Model of `WaveWriter.close()`: if `nframes is None`, seek to offset 0 and
rewrite the header from the actual frames-written counter; otherwise do
nothing. -/
def WaveWriter.close (w : WaveWriter) : WaveWriter :=
  match w.nframes with
  | none =>
      let h := writeHeader w.nchannels w.sampwidth w.framerate w.nframeswritten
      { w with fileBytes := h ++ w.fileBytes.drop h.length }
  | some _ => w

/-! ## `WaveGenerator`: oscillators and combinators

Python generators are modelled two ways, matching how the claims use
them: an infinite sample sequence is a total function `ℕ → ℚ` (its n-th
yielded value); a finite run is a `List ℚ` of the yielded values paired
with a `Bool` that is `true` when the generator run ends by raising an
uncaught exception on the next pull instead of terminating normally. -/

/-- The smallest input length among a tuple of (finite) iterators; `0`
for the empty tuple. -/
def minLen : List (List ℚ) → ℕ
  | [] => 0
  | [s] => s.length
  | s :: s2 :: rest => min s.length (minLen (s2 :: rest))

/-- One round of the body of `WaveGenerator.add` / `mult`: `x` starts at
the unit `e` (`0.0` for `add`, `1.0` for `mult`) and each iterator that
is not yet exhausted combines its next value into `x` with `op`; an
exhausted iterator raises `StopIteration`, which is caught and skipped
(and the iterator is recorded for removal). -/
def roundVal (e : ℚ) (op : ℚ → ℚ → ℚ) (its : List (List ℚ)) : ℚ :=
  its.foldl (fun x s => match s with | [] => x | v :: _ => op x v) e

/-- The `while iters:` loop of `WaveGenerator.add` / `mult`, run for at
most `fuel` iterations on finite iterators. Each iteration computes the
round value `x` and yields it; if any iterator was exhausted this round
(`r` nonempty), the resumption then executes `iters.remove(it)` on the
argument tuple `iters`, which raises `AttributeError` (`tuple` has no
attribute `remove`), recorded as crash flag `true`. Otherwise every
iterator advanced by one element and the loop continues. An empty tuple
makes `while iters:` false at once: the generator ends normally. -/
def combineRunFuel (e : ℚ) (op : ℚ → ℚ → ℚ) : ℕ → List (List ℚ) → List ℚ × Bool
  | 0, _ => ([], false)
  | _, [] => ([], false)
  | fuel + 1, s :: rest =>
      let its := s :: rest
      let x := roundVal e op its
      if its.any List.isEmpty then ([x], true)
      else
        let r := combineRunFuel e op fuel (its.map List.tail)
        (x :: r.1, r.2)

/-- Model of `WaveGenerator.add(*iters)` on finite iterators, run to completion
(`minLen + 1` loop iterations always suffice: the first exhaustion can
happen no later than round `minLen`, and then the run stops). -/
def add (its : List (List ℚ)) : List ℚ × Bool :=
  combineRunFuel 0 (· + ·) (minLen its + 1) its

/-- Model of `WaveGenerator.mult(*iters)` on finite iterators, run to
completion. -/
def mult (its : List (List ℚ)) : List ℚ × Bool :=
  combineRunFuel 1 (· * ·) (minLen its + 1) its

/-- Model of `WaveGenerator.add(*iters)` when every iterator is infinite: no
`StopIteration` ever occurs, so the n-th yield is the sum of the n-th
values (x starts at `0.0` and accumulates `x += it.next()`). -/
def addInf (fs : List (ℕ → ℚ)) : ℕ → ℚ :=
  fun n => (fs.map fun f => f n).sum

/-- Model of `WaveGenerator.amp(volume, it)` on an infinite input: each yielded
value is `volume * x`. -/
def ampInf (volume : ℚ) (f : ℕ → ℚ) : ℕ → ℚ :=
  fun n => volume * f n

/-- Model of `WaveGenerator.avg(*iters)` on infinite inputs:
`amp(1.0/len(iters), add(*iters))`. (For an empty tuple the source
raises `ZeroDivisionError` computing `1.0/len(iters)`; that crash is
modelled at the program level in `programModel`, and here `1/0 = 0` by
the `ℚ` convention.) -/
def avgInf (fs : List (ℕ → ℚ)) : ℕ → ℚ :=
  ampInf (1 / (fs.length : ℚ)) (addInf fs)

/-- Model of `WaveGenerator.sine(freq)`: yields `sin(i * (2*pi*freq/framerate))`
for `i = 0, 1, 2, ...`. Since the embedding is exact-rational, the
transcendental `math.sin` and `math.pi` are abstracted as parameters
`sinFn` and `piV`; every theorem about `sine` below holds for all
instantiations of them, so in particular for the real `sin` and `π`. -/
def sine (sinFn : ℚ → ℚ) (piV framerate freq : ℚ) : ℕ → ℚ :=
  fun i => sinFn ((i : ℚ) * (2 * piV * freq / framerate))

/-- The half period `w = int(framerate/freq/2)` computed by
`WaveGenerator.square` (truncating division, then clipped to `ℕ` for
loop counting; `xrange` of a non-positive number is empty). -/
def squareW (framerate freq : ℚ) : ℕ :=
  (pyInt (framerate / freq / 2)).toNat

/-- One pull from a fresh `WaveGenerator.square(freq)` generator, with
at most `fuel` iterations of its `while 1:` loop. Each iteration runs
`for i in xrange(w): yield +1` then `for i in xrange(w): yield -1`; if
`w ≥ 1` the very first iteration yields `+1`, but if `w = 0` both `for`
bodies are empty and the iteration yields nothing, so the loop spins. -/
def squarePullFuel (w : ℕ) : ℕ → Option ℚ
  | 0 => none
  | fuel + 1 => if 0 < w then some 1 else squarePullFuel w fuel

/-- The full period `w = int(framerate/freq)` computed by
`WaveGenerator.triangle`. -/
def triW (framerate freq : ℚ) : ℕ :=
  (pyInt (framerate / freq)).toNat

/-- Model of `WaveGenerator.triangle(freq)` for `w ≥ 1`: `r = 2.0/float(w)` and
the generator yields `i*r - 1.0` with `i` cycling through
`xrange(w)` forever, so the n-th yield uses `i = n % w`. (For `w = 0`
the source raises `ZeroDivisionError` computing `r`.) -/
def triangle (framerate freq : ℚ) : ℕ → ℚ :=
  fun n =>
    ((n % triW framerate freq : ℕ) : ℚ) * (2 / (triW framerate freq : ℚ)) - 1

/-- Model of `WaveGenerator.attack(attack, decay, it)` applied to an infinite
input `it` (as in every `gen_*_tone` driver, where `it` is built from
infinite oscillators): computes `na = int(framerate*attack)` and
`ra = 1.0/float(na)` — raising `ZeroDivisionError` if `na == 0` before
anything is yielded — then yields `i*ra*it.next()` for `i` in
`xrange(na)`; then computes `nd = int(framerate*decay)` and
`rd = 1.0/float(nd)` — raising `ZeroDivisionError` if `nd == 0` after
the attack samples were already yielded — then yields
`(1.0-i*rd)*it.next()` for `i` in `xrange(nd)`; finally yields one
extra `0.0`. A negative `na`/`nd` gives an empty `xrange`, no crash. -/
def attackRun (framerate a d : ℚ) (f : ℕ → ℚ) : List ℚ × Bool :=
  let na := pyInt (framerate * a)
  if na = 0 then ([], true)
  else
    let pre := (List.range na.toNat).map fun (i : ℕ) =>
      (i : ℚ) * (1 / (na : ℚ)) * f i
    let nd := pyInt (framerate * d)
    if nd = 0 then (pre, true)
    else
      (pre ++
        ((List.range nd.toNat).map fun (i : ℕ) =>
          (1 - (i : ℚ) * (1 / (nd : ℚ))) * f (na.toNat + i)) ++ [0], false)

/-- The gain sequence the attack/decay envelope applies, read off by
feeding `attack` the constant-1 input. -/
def attackGains (framerate a d : ℚ) : List ℚ × Bool :=
  attackRun framerate a d (fun _ => 1)

/-- The sample sequence composed by `gen_sine_tone(path, tones, volume,
attack, decay)` before it is written:
`attack(attack, decay, amp(volume, avg(*[sine(k) for k in tones])))`,
with the tone specifiers already resolved to frequencies. -/
def gen_sine_tone_samples (sinFn : ℚ → ℚ) (piV framerate : ℚ)
    (freqs : List ℚ) (volume a d : ℚ) : List ℚ × Bool :=
  attackRun framerate a d
    (ampInf volume (avgInf (freqs.map (sine sinFn piV framerate))))

/-- Modelled from the spec: the spec's §4.3 envelope
`env(duration, a0, a1)`, which does not occur in `genwav.py`
(`WaveGenerator.attack` is the source's only envelope code):
`round(frame_rate*duration)` samples with
`sample[i] = a0 + (i+1)*(a1-a0)/n`. Stated only to compare the claim's
envelope against the source's. -/
def envelopeSpec (framerate duration a0 a1 : ℚ) : List ℚ :=
  let n := (round (framerate * duration)).toNat
  (List.range n).map fun i => a0 + ((i : ℚ) + 1) * (a1 - a0) / (n : ℚ)

/-! ## `main`: the command-line glue -/

/-- The waveform generator function `main` selects (`gen_sine_tone`,
`gen_square_tone` or `gen_triangle_tone`; the script defines no noise
generator). -/
inductive ToneFunc where
  | sine
  | square
  | triangle
deriving DecidableEq, Repr

/-- Outcome of the body of `main(argv)` up to the call of the selected
generator function. -/
inductive MainResult where
  | usage
  | indexError
  | run (f : ToneFunc) (path : String) (tones : List String)
deriving DecidableEq, Repr

/-- Model of `getopt.do_shorts` for option string `'NQT'`: each character of an
option cluster must be one of `N`, `Q`, `T` (none takes an argument);
any other character raises `GetoptError`. -/
def parseShorts : List Char → Option (List Char)
  | [] => some []
  | c :: cs =>
      if c = 'N' ∨ c = 'Q' ∨ c = 'T' then (parseShorts cs).map (c :: ·)
      else none

/-- The `args[0][:1] != '-'` test `getopt` uses to recognize the end of
the options: does the argument start with a dash? -/
def startsDash (s : String) : Bool :=
  match s.toList with
  | [] => false
  | c :: _ => c = '-'

/-- Model of `getopt.getopt(args, 'NQT')`: strip leading option clusters until a
non-option argument, a bare `-`, or `--` (which is consumed); returns
the parsed option letters and the remaining positional arguments, or
`none` for `GetoptError`. -/
def getoptNQT : List String → Option (List Char × List String)
  | [] => some ([], [])
  | s :: rest =>
      if startsDash s = false ∨ s = "-" then some ([], s :: rest)
      else if s = "--" then some ([], rest)
      else
        match parseShorts (s.toList.drop 1) with
        | none => none
        | some cs =>
            match getoptNQT rest with
            | none => none
            | some (cs2, pos) => some (cs ++ cs2, pos)

/-- The flag-dispatch loop of `main`: `func` starts as `gen_sine_tone`
and each parsed option rebinds it (`-N` to `gen_sine_tone`, `-Q` to
`gen_square_tone`, `-T` to `gen_triangle_tone`); the last flag wins. -/
def toneFuncOf (opts : List Char) : ToneFunc :=
  opts.foldl
    (fun acc c =>
      if c = 'N' then ToneFunc.sine
      else if c = 'Q' then ToneFunc.square
      else if c = 'T' then ToneFunc.triangle
      else acc)
    ToneFunc.sine

/-- Model of `main(argv)` on `argv[1:]`, up to the call of the selected generator
function: a `GetoptError` prints the usage message and returns 100;
`args.pop(0)` on an empty positional list raises an uncaught
`IndexError`; otherwise the selected function is called with the first
positional as output path and the rest as tone list. -/
def mainModel (argv1 : List String) : MainResult :=
  match getoptNQT argv1 with
  | none => MainResult.usage
  | some (_, []) => MainResult.indexError
  | some (opts, path :: tones) => MainResult.run (toneFuncOf opts) path tones

/-- Observable outcome of running the whole script on `argv[1:]`:
process exit code or uncaught Python exception, together with the
number of bytes the script wrote into the output file before that
point. `proceeds` marks the executions that go on into actual tone
synthesis (outside the scope of the CLI-error claims). -/
inductive ProgOutcome where
  | exit (code : ℕ) (bytesWritten : ℕ)
  | pyError (kind : String) (bytesWritten : ℕ)
  | proceeds (f : ToneFunc) (path : String) (tones : List String)
deriving DecidableEq, Repr

/-- The whole script on `argv[1:]`. The usage path returns 100 with no
file opened; the missing-positional path dies on `IndexError` with no
file opened; with an output path but an empty tone list, every
`gen_*_tone` first opens the file and `WaveWriter.__init__` writes the
44-byte placeholder header (`nframes=None`), and then
`avg(*[])` raises `ZeroDivisionError` computing `1.0/len(iters)`,
leaving those bytes behind as a partial output file. -/
def programModel (argv1 : List String) : ProgOutcome :=
  match mainModel argv1 with
  | MainResult.usage => ProgOutcome.exit 100 0
  | MainResult.indexError => ProgOutcome.pyError "IndexError" 0
  | MainResult.run f path tones =>
      if tones = [] then
        ProgOutcome.pyError "ZeroDivisionError" (writeHeader 0 0 0 0).length
      else ProgOutcome.proceeds f path tones

/-! ## Helper lemmas -/

/-- Here `w = int(44100/44101/2)` is `0`: a concrete frequency above the
half-frame-rate degenerates the square oscillator's half period. -/
theorem squareW_44100_44101 : squareW 44100 44101 = 0 := by
  have h : pyInt (44100 / 44101 / 2 : ℚ) = 0 := by norm_num [pyInt]
  simp [squareW, h]

/-- Every header `_write_header` produces is exactly 44 bytes long,
whatever the field values. -/
theorem writeHeader_length (a b c d : ℕ) : (writeHeader a b c d).length = 44 :=
  rfl

/-- Evaluation fact: `int(44100/440) = 100`: the triangle period of tone A4. -/
theorem triW_44100_440 : triW 44100 440 = 100 := by
  have h : pyInt (44100 / 440 : ℚ) = 100 := by norm_num [pyInt]
  simp [triW, h]

/-- The triangle period of tone A4 is positive. -/
theorem triW_44100_440_pos : 1 ≤ triW 44100 440 := by
  rw [triW_44100_440]
  decide

/-- A non-option first argument stops `getopt` at once: everything is
positional. -/
theorem getoptNQT_pos (s : String) (rest : List String)
    (h : startsDash s = false) :
    getoptNQT (s :: rest) = some ([], s :: rest) := by
  simp [getoptNQT, h]

/-- Stripping a recognized single-letter flag: `getopt` records the
letter and goes on with the remaining arguments. -/
theorem getoptNQT_flag (c : Char) (s : String) (rest : List String)
    (h1 : startsDash s = true) (h2 : s ≠ "-") (h3 : s ≠ "--")
    (h4 : s.toList.drop 1 = [c]) (h5 : c = 'N' ∨ c = 'Q' ∨ c = 'T') :
    getoptNQT (s :: rest) =
      (getoptNQT rest).map (fun p => (c :: p.1, p.2)) := by
  simp only [getoptNQT, h1, h2, h3, h4, parseShorts, h5, if_true]
  cases hr : getoptNQT rest with
  | none => simp
  | some p => cases p with | mk a b => simp

/-- An unrecognized option letter raises `GetoptError` regardless of the
remaining arguments. -/
theorem getoptNQT_unknown (c : Char) (s : String) (rest : List String)
    (h1 : startsDash s = true) (h2 : s ≠ "-") (h3 : s ≠ "--")
    (h4 : s.toList.drop 1 = [c])
    (h5 : ¬(c = 'N' ∨ c = 'Q' ∨ c = 'T')) :
    getoptNQT (s :: rest) = none := by
  simp only [getoptNQT, h1, h2, h3, h4, parseShorts, h5, if_true, if_false]
  simp

/-- Characterization of `attack` on an infinite input when both frame
counts are positive: the attack ramp, the decay ramp, and one trailing
`0.0`, ending normally. -/
theorem attackRun_spec (framerate a d : ℚ) (f : ℕ → ℚ) (na nd : ℕ)
    (h1 : pyInt (framerate * a) = (na : ℤ))
    (h2 : pyInt (framerate * d) = (nd : ℤ))
    (h3 : 1 ≤ na) (h4 : 1 ≤ nd) :
    attackRun framerate a d f =
      ((List.range na).map (fun (i : ℕ) => (i : ℚ) * (1 / (na : ℚ)) * f i) ++
        (List.range nd).map
          (fun (i : ℕ) => (1 - (i : ℚ) * (1 / (nd : ℚ))) * f (na + i)) ++
        [0], false) := by
  have hna : ((na : ℤ) : ℚ) = (na : ℚ) := by push_cast; ring
  have hnd : ((nd : ℤ) : ℚ) = (nd : ℚ) := by push_cast; ring
  have hna0 : (na : ℤ) ≠ 0 := by
    simp only [ne_eq, Nat.cast_eq_zero]
    omega
  have hnd0 : (nd : ℤ) ≠ 0 := by
    simp only [ne_eq, Nat.cast_eq_zero]
    omega
  simp only [attackRun, h1, h2, hna0, hnd0, if_false, Int.toNat_natCast,
    hna, hnd, if_neg]

/-- The length and normal termination of a composed tone: `na` attack
samples, `nd` decay samples and the trailing `0.0`. -/
theorem attackRun_length (framerate a d : ℚ) (f : ℕ → ℚ) (na nd : ℕ)
    (h1 : pyInt (framerate * a) = (na : ℤ))
    (h2 : pyInt (framerate * d) = (nd : ℤ))
    (h3 : 1 ≤ na) (h4 : 1 ≤ nd) :
    (attackRun framerate a d f).1.length = na + nd + 1 ∧
      (attackRun framerate a d f).2 = false := by
  rw [attackRun_spec framerate a d f na nd h1 h2 h3 h4]
  simp
  omega

/-- Evaluation fact: `int(44100 * 0.01) = 441` in exact arithmetic. -/
theorem pyInt_default_attack : pyInt ((44100 : ℚ) * (1 / 100)) = ((441 : ℕ) : ℤ) := by
  norm_num [pyInt]

/-- Evaluation fact: `int(2 * 1) = 2`: the frame count of a one-second ramp at frame
rate 2. -/
theorem pyInt_two_mul_one : pyInt ((2 : ℚ) * 1) = ((2 : ℕ) : ℤ) := by
  norm_num [pyInt]

/-- Evaluation fact: `int(44100 * 0.7) = 30870` in exact arithmetic. -/
theorem pyInt_default_decay : pyInt ((44100 : ℚ) * (7 / 10)) = ((30870 : ℕ) : ℤ) := by
  norm_num [pyInt]

/-- Dropping `k+1` elements is dropping `k` from the tail. -/
theorem drop_succ_eq_tail_drop (s : List ℚ) (k : ℕ) :
    s.drop (k + 1) = s.tail.drop k := by
  cases s <;> simp

/-- The head (default `d`) of `s.drop k` is the `k`-th element
(default `d`). -/
theorem headD_drop (s : List ℚ) (k : ℕ) (d : ℚ) :
    (s.drop k).headD d = s.getD k d := by
  induction k generalizing s with
  | zero => cases s <;> simp [List.getD]
  | succ k ih =>
      cases s with
      | nil => simp [List.getD]
      | cons a t =>
          rw [List.drop_succ_cons]
          simp [List.getD, ih t]

/-- If some iterator is already exhausted, the minimum length is 0. -/
theorem minLen_eq_zero_of_any_isEmpty (its : List (List ℚ))
    (h : its.any List.isEmpty = true) : minLen its = 0 := by
  induction its with
  | nil => simp at h
  | cons s rest ih =>
      cases rest with
      | nil =>
          simp only [List.any_cons, List.any_nil, Bool.or_false] at h
          simp [minLen, List.length_eq_zero.mpr (List.isEmpty_iff.mp h)]
      | cons s2 rest2 =>
          simp only [List.any_cons, Bool.or_eq_true] at h
          rcases h with h | h
          · simp [minLen, List.length_eq_zero.mpr (List.isEmpty_iff.mp h)]
          · have := ih (by simpa using h)
            simp [minLen, this]

/-- If no iterator is exhausted, all have positive length, and the
minimum length of the tails is one less than that of the iterators. -/
theorem minLen_tail (its : List (List ℚ))
    (h : its.any List.isEmpty = false) :
    1 ≤ minLen its ∨ its = [] := by
  induction its with
  | nil => simp
  | cons s rest ih =>
      left
      simp only [List.any_cons, Bool.or_eq_false_iff] at h
      have hs : s ≠ [] := by
        intro hcontra
        subst hcontra
        simp at h
      have hs1 : 1 ≤ s.length := by
        cases s
        · simp at hs
        · simp
      cases rest with
      | nil => simpa [minLen] using hs1
      | cons s2 rest2 =>
          rcases ih (by simp [h.2]) with h1 | h1
          · simp only [minLen]
            omega
          · simp at h1

/-- Minimum length after advancing every live iterator by one. -/
theorem minLen_map_tail (its : List (List ℚ))
    (h : its.any List.isEmpty = false) :
    minLen (its.map List.tail) = minLen its - 1 := by
  induction its with
  | nil => simp [minLen]
  | cons s rest ih =>
      simp only [List.any_cons, Bool.or_eq_false_iff] at h
      have hs : 1 ≤ s.length := by
        cases s
        · simp at h
        · simp
      cases rest with
      | nil =>
          simp only [List.map_cons, List.map_nil, minLen, List.length_tail]
      | cons s2 rest2 =>
          have h2 := ih (by simp [h.2])
          have h3 := minLen_tail (s2 :: rest2) (by simp [h.2])
          simp only [List.map_cons] at h2 ⊢
          simp only [minLen, List.length_tail, h2]
          rcases h3 with h3 | h3
          · omega
          · simp at h3

/-- The `x` accumulated by `add`'s inner `for` loop round: folding `+`
over the heads of the live iterators equals the accumulator plus the
sum of head-or-0. -/
theorem roundVal_add (its : List (List ℚ)) (acc : ℚ) :
    its.foldl (fun x s => match s with | [] => x | v :: _ => x + v) acc =
      acc + (its.map fun s => s.headD 0).sum := by
  induction its generalizing acc with
  | nil => simp
  | cons s rest ih =>
      cases s with
      | nil => simpa using ih acc
      | cons v t =>
          simp only [List.foldl_cons, List.map_cons, List.sum_cons,
            List.headD_cons]
          rw [ih (acc + v)]
          ring

/-- The `x` accumulated by `mult`'s inner `for` loop round. -/
theorem roundVal_mult (its : List (List ℚ)) (acc : ℚ) :
    its.foldl (fun x s => match s with | [] => x | v :: _ => x * v) acc =
      acc * (its.map fun s => s.headD 1).prod := by
  induction its generalizing acc with
  | nil => simp
  | cons s rest ih =>
      cases s with
      | nil => simpa using ih acc
      | cons v t =>
          simp only [List.foldl_cons, List.map_cons, List.prod_cons,
            List.headD_cons]
          rw [ih (acc * v)]
          ring

/-- Mapping over `List.range` with `drop 0` is the identity. -/
theorem map_drop_zero (its : List (List ℚ)) : List.map (List.drop 0) its = its := by
  induction its with
  | nil => rfl
  | cons s rest ih => simp [ih]

/-- Peeling the first element off a map over `List.range (m + 1)`. -/
theorem range_map_shift (m : ℕ) (g : ℕ → ℚ) :
    (List.range (m + 1)).map g = g 0 :: (List.range m).map (fun k => g (k + 1)) := by
  rw [List.range_succ_eq_map, List.map_cons, List.map_map]
  rfl

/-- Closed form of the `add`/`mult` loop on finite nonempty input: the
run yields one round value for every `k ∈ [0, minLen]` — computed over
the iterators advanced `k` times — and then crashes with
`AttributeError` when resumed after the round that saw the first
`StopIteration`. -/
theorem combineRunFuel_spec (e : ℚ) (op : ℚ → ℚ → ℚ) (fuel : ℕ)
    (its : List (List ℚ)) (h : its ≠ []) (hf : minLen its < fuel) :
    combineRunFuel e op fuel its =
      ((List.range (minLen its + 1)).map
        (fun k => roundVal e op (its.map (List.drop k))), true) := by
  induction fuel generalizing its with
  | zero => omega
  | succ fuel ih =>
      obtain ⟨s, rest, rfl⟩ : ∃ s rest, its = s :: rest := by
        cases its
        · simp at h
        · exact ⟨_, _, rfl⟩
      by_cases hd : (s :: rest).any List.isEmpty
      · have hm : minLen (s :: rest) = 0 :=
          minLen_eq_zero_of_any_isEmpty _ hd
        simp only [combineRunFuel, hd, if_true, hm]
        simp [List.range_succ, map_drop_zero]
      · have hd' : (s :: rest).any List.isEmpty = false := by
          simpa only [Bool.not_eq_true] using hd
        have h1 : 1 ≤ minLen (s :: rest) := by
          rcases minLen_tail (s :: rest) hd' with h1 | h1
          · exact h1
          · simp at h1
        have h2 : minLen ((s :: rest).map List.tail) =
            minLen (s :: rest) - 1 := minLen_map_tail _ hd'
        have h3 : minLen ((s :: rest).map List.tail) < fuel := by omega
        have h4 := ih ((s :: rest).map List.tail) (by simp) h3
        simp only [combineRunFuel, hd', Bool.false_eq_true, if_false, h4]
        have h5 : minLen (s :: rest) + 1 =
            (minLen ((s :: rest).map List.tail) + 1) + 1 := by omega
        rw [h5, range_map_shift (minLen ((s :: rest).map List.tail) + 1)
          (fun k => roundVal e op (List.map (List.drop k) (s :: rest)))]
        simp only [Prod.mk.injEq, List.cons.injEq]
        refine ⟨⟨?_, ?_⟩, trivial⟩
        · rw [map_drop_zero]
        · refine List.map_congr_left ?_
          intro k _
          refine congrArg (roundVal e op) ?_
          rw [List.map_map]
          refine List.map_congr_left ?_
          intro t _
          simp only [Function.comp_apply]
          exact (drop_succ_eq_tail_drop t k).symm

/-- If every iterator has at least `fuel` elements, `fuel` rounds of the
`add`/`mult` loop all succeed: the run neither terminates nor crashes
within any such bound (this is the all-infinite-inputs case, observed
through arbitrarily long finite prefixes). -/
theorem combineRunFuel_alive (e : ℚ) (op : ℚ → ℚ → ℚ) (fuel : ℕ)
    (its : List (List ℚ)) (hne : its ≠ [])
    (h : ∀ s ∈ its, fuel ≤ s.length) :
    (combineRunFuel e op fuel its).2 = false ∧
      (combineRunFuel e op fuel its).1.length = fuel := by
  induction fuel generalizing its with
  | zero =>
      cases its
      · simp [combineRunFuel]
      · simp [combineRunFuel]
  | succ fuel ih =>
      obtain ⟨s, rest, rfl⟩ : ∃ s rest, its = s :: rest := by
        cases its
        · simp at hne
        · exact ⟨_, _, rfl⟩
      have hd : (s :: rest).any List.isEmpty = false := by
        simp only [List.any_eq_false]
        intro t ht
        have := h t ht
        cases t
        · simp at this
        · simp
      have h2 : ∀ t ∈ (s :: rest).map List.tail, fuel ≤ t.length := by
        intro t ht
        obtain ⟨t0, ht0, rfl⟩ := List.mem_map.mp ht
        have := h t0 ht0
        simp only [List.length_tail]
        omega
      have h4 := ih ((s :: rest).map List.tail) (by simp) h2
      simp only [combineRunFuel, hd, Bool.false_eq_true, if_false,
        List.map_cons]
      simp only [List.map_cons] at h4
      exact ⟨h4.1, by simp [h4.2]⟩

/-- A round of `add` over iterators advanced `k` times sums the `k`-th
element of every iterator that still has one. -/
theorem roundVal_add_drop (its : List (List ℚ)) (k : ℕ) :
    roundVal 0 (· + ·) (its.map (List.drop k)) =
      (its.map fun s => s.getD k 0).sum := by
  have h : roundVal 0 (· + ·) (its.map (List.drop k)) =
      (its.map (List.drop k)).foldl
        (fun x s => match s with | [] => x | v :: _ => x + v) 0 := rfl
  rw [h, roundVal_add, zero_add, List.map_map]
  refine congrArg List.sum (List.map_congr_left ?_)
  intro s _
  simp only [Function.comp_apply]
  exact headD_drop s k 0

/-- A round of `mult` over iterators advanced `k` times multiplies the
`k`-th element of every iterator that still has one. -/
theorem roundVal_mult_drop (its : List (List ℚ)) (k : ℕ) :
    roundVal 1 (· * ·) (its.map (List.drop k)) =
      (its.map fun s => s.getD k 1).prod := by
  have h : roundVal 1 (· * ·) (its.map (List.drop k)) =
      (its.map (List.drop k)).foldl
        (fun x s => match s with | [] => x | v :: _ => x * v) 1 := rfl
  rw [h, roundVal_mult, one_mul, List.map_map]
  refine congrArg List.prod (List.map_congr_left ?_)
  intro s _
  simp only [Function.comp_apply]
  exact headD_drop s k 1

/-! ## Claims -/

/-- Claim C7 (counterexample): the claim says the placeholder header
written when the frame count is unknown "consists entirely of zero
bytes"; in the source, `_write_header(0, 0, 0, 0)` still writes the
`'RIFF'` tag, so already the first placeholder byte is `82`, not `0`. -/
theorem placeholder_header_not_all_zero :
    (writeHeader 0 0 0 0).headD 0 = 82 ∧ (82 : ℕ) ≠ 0 ∧
      (writeHeader 0 0 0 0).length = 44 := by
  refine ⟨by decide, by decide, by decide⟩

/-- Claim C7 (amended): the placeholder header has exactly the same
44-byte length as every finalized header, and it zeroes exactly the
parameter-derived fields (channel count, frame rate, byte rate, block
align, bits per sample and the data length, hence a RIFF size field of
`36 + 0`), while the constant tags `'RIFF'`, `'WAVE'`, `'fmt '`, the
chunk size 16, the PCM format code 1 and the `'data'` tag are written
as in a finalized header — so it is not all-zero. -/
theorem placeholder_header_amended (nchannels sampwidth framerate nframes : ℕ) :
    writeHeader 0 0 0 0 =
      [82, 73, 70, 70, 36, 0, 0, 0, 87, 65, 86, 69, 102, 109, 116, 32,
       16, 0, 0, 0, 1, 0, 0, 0, 0, 0, 0, 0, 0, 0, 0, 0, 0, 0, 0, 0,
       100, 97, 116, 97, 0, 0, 0, 0] ∧
    (writeHeader 0 0 0 0).length =
      (writeHeader nchannels sampwidth framerate nframes).length ∧
    (writeHeader nchannels sampwidth framerate nframes).length = 44 := by
  refine ⟨by decide, ?_, ?_⟩ <;>
    simp [writeHeader_length]

/-- Claim C10: if the frequency is high enough that the computed half
period `w = int(framerate/freq/2)` is `0`, a pull from the square
generator never yields a value and never terminates, no matter how many
iterations of its `while 1:` loop are allowed — any consumer of the
sequence diverges. -/
theorem square_zero_width_diverges (framerate freq : ℚ) (fuel : ℕ)
    (h : squareW framerate freq = 0) :
    squarePullFuel (squareW framerate freq) fuel = none := by
  rw [h]
  induction fuel with
  | zero => rfl
  | succ n ih => simpa [squarePullFuel] using ih

/-- Claim C10 (witness): at frame rate 44100 and frequency 44101 the
half period is `0` and 1000 loop iterations produce no sample. -/
theorem square_zero_width_diverges_witness :
    squareW 44100 44101 = 0 ∧
      squarePullFuel (squareW 44100 44101) 1000 = none :=
  ⟨squareW_44100_44101,
    square_zero_width_diverges 44100 44101 1000 squareW_44100_44101⟩

/-- Claim C9: for every frequency whose full period
`w = int(framerate/freq)` is at least 1, every triangle sample lies in
`[-1, 1 - 2/w] ⊆ [-1, 1)`, the first sample of each period is exactly
`-1`, and the bound `1 - 2/w` is attained (at index `w - 1`), so `+1`
is never reached. -/
theorem triangle_range (framerate freq : ℚ) (n k : ℕ)
    (h : 1 ≤ triW framerate freq) :
    -1 ≤ triangle framerate freq n ∧
    triangle framerate freq n ≤ 1 - 2 / (triW framerate freq : ℚ) ∧
    1 - 2 / (triW framerate freq : ℚ) < 1 ∧
    triangle framerate freq (k * triW framerate freq) = -1 ∧
    triangle framerate freq (triW framerate freq - 1) =
      1 - 2 / (triW framerate freq : ℚ) := by
  set w := triW framerate freq with hw
  have hw0 : 0 < w := by omega
  have hwq : (0 : ℚ) < (w : ℚ) := by exact_mod_cast hw0
  have key : ((w : ℚ) - 1) * (2 / (w : ℚ)) = 2 - 2 / (w : ℚ) := by
    field_simp
    ring
  have hmod : n % w < w := Nat.mod_lt _ hw0
  have hmodq : ((n % w : ℕ) : ℚ) ≤ (w : ℚ) - 1 := by
    have h1 : (n % w : ℕ) + 1 ≤ w := hmod
    have h2 : ((n % w : ℕ) : ℚ) + 1 ≤ (w : ℚ) := by exact_mod_cast h1
    linarith
  have hpos : 0 < 2 / (w : ℚ) := by positivity
  refine ⟨?_, ?_, by linarith, ?_, ?_⟩
  · have h1 : (0 : ℚ) ≤ ((n % w : ℕ) : ℚ) * (2 / (w : ℚ)) := by positivity
    simp only [triangle, ← hw]
    linarith
  · have h2 : ((n % w : ℕ) : ℚ) * (2 / (w : ℚ)) ≤
        ((w : ℚ) - 1) * (2 / (w : ℚ)) :=
      mul_le_mul_of_nonneg_right hmodq (by positivity)
    simp only [triangle, ← hw]
    linarith [key]
  · simp [triangle, ← hw, Nat.mul_mod_left]
  · have h3 : (w - 1) % w = w - 1 := Nat.mod_eq_of_lt (by omega)
    have h4 : ((w - 1 : ℕ) : ℚ) = (w : ℚ) - 1 := by
      have h5 : ((w - 1 : ℕ) : ℚ) = (w : ℚ) - ((1 : ℕ) : ℚ) := Nat.cast_sub h
      simpa using h5
    simp only [triangle, ← hw, h3, h4]
    linarith [key]

/-- Claim C9 (witness): tone A4 at 44100 Hz has triangle period 100 and
the bounds hold at the concrete samples 7 and at period starts. -/
theorem triangle_range_witness :
    1 ≤ triW 44100 440 ∧
      (-1 ≤ triangle 44100 440 7 ∧
       triangle 44100 440 7 ≤ 1 - 2 / (triW 44100 440 : ℚ) ∧
       1 - 2 / (triW 44100 440 : ℚ) < 1 ∧
       triangle 44100 440 (3 * triW 44100 440) = -1 ∧
       triangle 44100 440 (triW 44100 440 - 1) =
         1 - 2 / (triW 44100 440 : ℚ)) :=
  ⟨triW_44100_440_pos, triangle_range 44100 440 7 3 triW_44100_440_pos⟩

/-- Claim C8: mixing (`avg`, the source's normalized sum) `N ≥ 1` sine
oscillators of equal frequency and phase yields, sample for sample,
exactly the output of a single such oscillator — for every abstract
interpretation of `math.sin` and `math.pi`, hence in particular for the
real ones, and exact equality implies the claim's floating tolerance. -/
theorem avg_replicate_sine (sinFn : ℚ → ℚ) (piV framerate freq : ℚ)
    (N n : ℕ) (h : 1 ≤ N) :
    avgInf (List.replicate N (sine sinFn piV framerate freq)) n =
      sine sinFn piV framerate freq n := by
  have hN : (N : ℚ) ≠ 0 := Nat.cast_ne_zero.mpr (by omega)
  simp only [avgInf, ampInf, addInf, List.map_replicate, List.sum_replicate,
    List.length_replicate, smul_eq_mul]
  field_simp

/-- Claim C8 (witness): three identical A4 sine oscillators mixed give
the single-oscillator sample at index 5. -/
theorem avg_replicate_sine_witness :
    1 ≤ 3 ∧
      avgInf (List.replicate 3 (sine (fun x => x) 3 44100 440)) 5 =
        sine (fun x => x) 3 44100 440 5 :=
  ⟨by decide, avg_replicate_sine (fun x => x) 3 44100 440 3 5 (by decide)⟩

/-- Claim C3 (counterexample): the claim says the CLI accepts `-S`
(sine) and `-N` (noise); in the source, `getopt.getopt(argv[1:], 'NQT')`
rejects `-S` (usage error), and `-N` selects `gen_sine_tone` — the same
sine generator as the no-flag default. There is no noise generator in
the script at all. -/
theorem cli_flags_claim_false :
    mainModel ["-S", "out.wav", "A4"] = MainResult.usage ∧
    mainModel ["-N", "out.wav", "A4"] =
      MainResult.run ToneFunc.sine "out.wav" ["A4"] ∧
    MainResult.usage ≠ MainResult.run ToneFunc.sine "out.wav" ["A4"] := by
  refine ⟨by decide, by decide, by decide⟩

/-- Claim C3 (amended): the CLI accepts exactly the waveform flags `-N`,
`-Q`, `-T`, selecting the sine, square and triangle generators
respectively (`-N` is sine, not noise; no noise kind exists), with sine
as the default when no flag is given; `-S` is an unknown flag and takes
the usage-error path. -/
theorem cli_flags_amended (path : String) (tones rest : List String)
    (hpath : startsDash path = false) :
    mainModel ("-N" :: path :: tones) = MainResult.run ToneFunc.sine path tones ∧
    mainModel ("-Q" :: path :: tones) = MainResult.run ToneFunc.square path tones ∧
    mainModel ("-T" :: path :: tones) = MainResult.run ToneFunc.triangle path tones ∧
    mainModel (path :: tones) = MainResult.run ToneFunc.sine path tones ∧
    mainModel ("-S" :: rest) = MainResult.usage := by
  have hN := getoptNQT_flag 'N' "-N" (path :: tones) (by decide) (by decide)
    (by decide) (by decide) (by decide)
  have hQ := getoptNQT_flag 'Q' "-Q" (path :: tones) (by decide) (by decide)
    (by decide) (by decide) (by decide)
  have hT := getoptNQT_flag 'T' "-T" (path :: tones) (by decide) (by decide)
    (by decide) (by decide) (by decide)
  have hS := getoptNQT_unknown 'S' "-S" rest (by decide) (by decide)
    (by decide) (by decide) (by decide)
  have hp := getoptNQT_pos path tones hpath
  refine ⟨?_, ?_, ?_, ?_, ?_⟩ <;>
    simp [mainModel, hN, hQ, hT, hS, hp, toneFuncOf]

/-- Claim C3 (witness): concrete invocation with a plain output path. -/
theorem cli_flags_amended_witness :
    startsDash "out.wav" = false ∧
      (mainModel ["-N", "out.wav", "A4"] =
        MainResult.run ToneFunc.sine "out.wav" ["A4"] ∧
      mainModel ["-Q", "out.wav", "A4"] =
        MainResult.run ToneFunc.square "out.wav" ["A4"] ∧
      mainModel ["-T", "out.wav", "A4"] =
        MainResult.run ToneFunc.triangle "out.wav" ["A4"] ∧
      mainModel ["out.wav", "A4"] =
        MainResult.run ToneFunc.sine "out.wav" ["A4"] ∧
      mainModel ["-S", "x"] = MainResult.usage) :=
  ⟨by decide, cli_flags_amended "out.wav" ["A4"] ["x"] (by decide)⟩

/-- Claim C4 (counterexample): the claim says a missing output path or
an empty tone list exits with status 100 and produces no partial output;
in the source, a missing output path dies on an uncaught `IndexError`
from `args.pop(0)` (interpreter failure, not exit code 100), and an
empty tone list dies on an uncaught `ZeroDivisionError` from
`avg(*[])` — after the 44-byte placeholder header has already been
written to the output file, i.e. a partial output file is produced. -/
theorem cli_errors_claim_false :
    programModel [] = ProgOutcome.pyError "IndexError" 0 ∧
    programModel ["out.wav"] = ProgOutcome.pyError "ZeroDivisionError" 44 ∧
    programModel [] ≠ ProgOutcome.exit 100 0 ∧
    programModel ["out.wav"] ≠ ProgOutcome.exit 100 0 ∧
    (44 : ℕ) ≠ 0 := by
  refine ⟨by decide, by decide, by decide, by decide, by decide⟩

/-- Claim C4 (amended): only an unknown flag takes the usage path with
exit status 100 (and no file is opened there); a missing output path —
no positional arguments at all, with or without a flag — raises an
uncaught `IndexError` with no bytes written, and an empty tone list
raises an uncaught `ZeroDivisionError` after the 44-byte placeholder
header has been written, leaving a partial output file behind. -/
theorem cli_errors_amended (path : String) (rest : List String)
    (hpath : startsDash path = false) :
    programModel [] = ProgOutcome.pyError "IndexError" 0 ∧
    programModel ["-N"] = ProgOutcome.pyError "IndexError" 0 ∧
    programModel [path] = ProgOutcome.pyError "ZeroDivisionError" 44 ∧
    programModel ("-S" :: rest) = ProgOutcome.exit 100 0 := by
  refine ⟨by decide, by decide, ?_, ?_⟩
  · have hp := getoptNQT_pos path [] hpath
    simp [programModel, mainModel, hp, toneFuncOf, writeHeader_length]
  · have hS := getoptNQT_unknown 'S' "-S" rest (by decide) (by decide)
      (by decide) (by decide) (by decide)
    simp [programModel, mainModel, hS]

/-- Claim C4 (witness): concrete invocations. -/
theorem cli_errors_amended_witness :
    startsDash "out.wav" = false ∧
      (programModel [] = ProgOutcome.pyError "IndexError" 0 ∧
      programModel ["-N"] = ProgOutcome.pyError "IndexError" 0 ∧
      programModel ["out.wav"] = ProgOutcome.pyError "ZeroDivisionError" 44 ∧
      programModel ["-S", "out.wav"] = ProgOutcome.exit 100 0) :=
  ⟨by decide, cli_errors_amended "out.wav" ["out.wav"] (by decide)⟩

/-- Claim C1 (counterexample): the claim says a composed tone at the
default parameters has exactly `441 + 30870 = 31311` samples, the sum of
the attack and decay frame counts; in the source, `attack` yields one
extra trailing `0.0` sample after the decay ramp, so in exact arithmetic
the composed length at the defaults is `441 + 30870 + 1 = 31312`. -/
theorem compose_length_claim_false :
    (gen_sine_tone_samples (fun x => x) 3 44100 [440] (1 / 2) (1 / 100)
        (7 / 10)).1.length = 31312 ∧
      (31312 : ℕ) ≠ 31311 := by
  have h := attackRun_length 44100 (1 / 100) (7 / 10)
    (ampInf (1 / 2) (avgInf (List.map (sine (fun x => x) 3 44100) [440])))
    441 30870 pyInt_default_attack pyInt_default_decay (by decide) (by decide)
  exact ⟨h.1, by decide⟩

/-- Claim C1 (amended): for every non-empty tone list, composing a tone
yields exactly `na + nd + 1` samples, where `na = int(frame_rate*attack)`
and `nd = int(frame_rate*decay)` are positive — the attack ramp, the
decay ramp, and one extra trailing `0.0` sample — and the run ends
normally; at the defaults (exact arithmetic) this is
`441 + 30870 + 1 = 31312`, not `441 + 30870`. -/
theorem compose_length_amended (sinFn : ℚ → ℚ) (piV framerate : ℚ)
    (freqs : List ℚ) (volume a d : ℚ) (na nd : ℕ) (_hne : freqs ≠ [])
    (h1 : pyInt (framerate * a) = (na : ℤ))
    (h2 : pyInt (framerate * d) = (nd : ℤ))
    (h3 : 1 ≤ na) (h4 : 1 ≤ nd) :
    (gen_sine_tone_samples sinFn piV framerate freqs volume a d).1.length =
        na + nd + 1 ∧
      (gen_sine_tone_samples sinFn piV framerate freqs volume a d).2 = false :=
  attackRun_length framerate a d
    (ampInf volume (avgInf (freqs.map (sine sinFn piV framerate))))
    na nd h1 h2 h3 h4

/-- Claim C1 (witness): tone A4 at the default parameters. -/
theorem compose_length_amended_witness :
    (([440] : List ℚ) ≠ [] ∧
      pyInt ((44100 : ℚ) * (1 / 100)) = ((441 : ℕ) : ℤ) ∧
      pyInt ((44100 : ℚ) * (7 / 10)) = ((30870 : ℕ) : ℤ) ∧
      1 ≤ 441 ∧ 1 ≤ 30870) ∧
    ((gen_sine_tone_samples (fun x => x) 3 44100 [440] (1 / 2) (1 / 100)
        (7 / 10)).1.length = 441 + 30870 + 1 ∧
      (gen_sine_tone_samples (fun x => x) 3 44100 [440] (1 / 2) (1 / 100)
        (7 / 10)).2 = false) :=
  ⟨⟨by simp, pyInt_default_attack, pyInt_default_decay, by decide, by decide⟩,
    compose_length_amended (fun x => x) 3 44100 [440] (1 / 2) (1 / 100)
      (7 / 10) 441 30870 (by simp) pyInt_default_attack pyInt_default_decay
      (by decide) (by decide)⟩

/-- Claim C5 (counterexample): the claim describes the envelope as
`sample[i] = a0 + (i+1)*(a1-a0)/n` (first value one step past `a0`,
last exactly `a1`, empty on zero duration). The source's envelope
(`attack`) instead emits gains `i/na` then `1 - i/nd` then a final
`0.0`: at `framerate = 2`, `attack = decay = 1` the emitted gains are
`[0, 1/2, 1, 1/2, 0]` while the claimed formula gives
`[1/2, 1] ++ [1/2, 0]`; the first emitted gain is exactly `a0 = 0`
(claim: never exactly `a0`), and a duration that truncates to zero
frames raises `ZeroDivisionError` instead of producing an empty
sequence. -/
theorem attack_envelope_claim_false :
    (attackGains 2 1 1).1 = [0, 1 / 2, 1, 1 / 2, 0] ∧
    envelopeSpec 2 1 0 1 ++ envelopeSpec 2 1 1 0 = [1 / 2, 1, 1 / 2, 0] ∧
    (attackGains 2 1 1).1 ≠ envelopeSpec 2 1 0 1 ++ envelopeSpec 2 1 1 0 ∧
    (attackGains 2 1 1).1.head? = some 0 ∧
    (envelopeSpec 2 1 0 1).head? = some (1 / 2) ∧
    (0 : ℚ) ≠ 1 / 2 ∧
    (attackRun 44100 0 (7 / 10) (fun _ => 1)).2 = true := by
  have hpy : pyInt 2 = 2 := by norm_num [pyInt]
  have hrd : round ((2 : ℚ) * 1) = 2 := by norm_num
  have e1 : (attackGains 2 1 1).1 = [0, 1 / 2, 1, 1 / 2, 0] := by
    simp [attackGains, attackRun, hpy, List.range_succ]
    norm_num
  have e2 : envelopeSpec 2 1 0 1 = [1 / 2, 1] := by
    simp [envelopeSpec, hrd, List.range_succ]
  have e3 : envelopeSpec 2 1 1 0 = [1 / 2, 0] := by
    simp [envelopeSpec, hrd, List.range_succ]
    norm_num
  refine ⟨e1, by rw [e2, e3]; rfl, ?_, by rw [e1]; rfl, by rw [e2]; rfl,
    by norm_num, ?_⟩
  · rw [e1, e2, e3]
    intro hcontra
    norm_num at hcontra
  · simp [attackRun, pyInt]

/-- Claim C5 (amended): with `na = int(frame_rate*attack) ≥ 1` and
`nd = int(frame_rate*decay) ≥ 1`, the gain sequence the source's
envelope (`attack`) emits has length `na + nd + 1` and is
`i/na` for `i ∈ [0, na)` (so the first emitted gain is exactly the start
gain `0`, and the ramp never reaches `1`), then `1 - j/nd` for
`j ∈ [0, nd)` (first decay gain exactly `1`, last `1/nd`, never `0`),
then one final exact `0`; the run ends normally. (Zero-frame durations
raise `ZeroDivisionError` instead — see the counterexample.) -/
theorem attack_ramp_amended (framerate a d : ℚ) (na nd i j : ℕ)
    (h1 : pyInt (framerate * a) = (na : ℤ))
    (h2 : pyInt (framerate * d) = (nd : ℤ))
    (h3 : 1 ≤ na) (h4 : 1 ≤ nd) (hi : i < na) (hj : j < nd) :
    (attackGains framerate a d).2 = false ∧
    (attackGains framerate a d).1.length = na + nd + 1 ∧
    (attackGains framerate a d).1.getD i 0 = (i : ℚ) / (na : ℚ) ∧
    (attackGains framerate a d).1.getD (na + j) 0 = 1 - (j : ℚ) / (nd : ℚ) ∧
    (attackGains framerate a d).1.getD (na + nd) 0 = 0 ∧
    (attackGains framerate a d).1.head? = some 0 := by
  have hg : attackGains framerate a d =
      ((List.range na).map (fun (i : ℕ) => (i : ℚ) * (1 / (na : ℚ))) ++
        (List.range nd).map (fun (i : ℕ) => 1 - (i : ℚ) * (1 / (nd : ℚ))) ++
        [0], false) := by
    have h := attackRun_spec framerate a d (fun _ => 1) na nd h1 h2 h3 h4
    simpa [attackGains] using h
  have hgetA : ∀ i2, i2 < na →
      (attackGains framerate a d).1.getD i2 0 = (i2 : ℚ) / (na : ℚ) := by
    intro i2 hi2
    rw [hg]
    simp only
    rw [List.getD_append _ _ _ _ (by simp; omega),
      List.getD_append _ _ _ _ (by simpa using hi2),
      List.getD_eq_getElem _ _ (by simpa using hi2)]
    simp [div_eq_mul_inv]
  refine ⟨by rw [hg], by rw [hg]; simp; omega, hgetA i hi, ?_, ?_, ?_⟩
  · rw [hg]
    simp only
    rw [List.getD_append _ _ _ _ (by simp; omega),
      List.getD_append_right _ _ _ _ (by simp),
      List.getD_eq_getElem _ _ (by simpa using hj)]
    simp [hj, div_eq_mul_inv]
  · rw [hg]
    simp only
    rw [List.getD_append_right _ _ _ _ (by simp)]
    simp
  · rw [hg]
    simp only
    obtain ⟨m, rfl⟩ : ∃ m, na = m + 1 := ⟨na - 1, by omega⟩
    simp [List.range_succ_eq_map]

/-- Claim C5 (witness): `framerate = 2`, one-second attack and decay
(`na = nd = 2`), sampled at `i = j = 1`. -/
theorem attack_ramp_amended_witness :
    (pyInt ((2 : ℚ) * 1) = ((2 : ℕ) : ℤ) ∧ 1 ≤ 2 ∧ 1 < 2) ∧
    ((attackGains 2 1 1).2 = false ∧
     (attackGains 2 1 1).1.length = 2 + 2 + 1 ∧
     (attackGains 2 1 1).1.getD 1 0 = (1 : ℚ) / (2 : ℚ) ∧
     (attackGains 2 1 1).1.getD (2 + 1) 0 = 1 - (1 : ℚ) / (2 : ℚ) ∧
     (attackGains 2 1 1).1.getD (2 + 2) 0 = 0 ∧
     (attackGains 2 1 1).1.head? = some 0) :=
  ⟨⟨pyInt_two_mul_one, by decide, by decide⟩,
    attack_ramp_amended 2 1 1 2 2 1 1 pyInt_two_mul_one pyInt_two_mul_one
      (by decide) (by decide) (by decide) (by decide)⟩

/-- Claim C6: writing `N` samples with a declared frame count produces a
file whose 44-byte header is `writeHeader 1 w fr N`, whose data-length
field (bytes 40–43) encodes `N * sampwidth`; writing the same samples
with unknown frame count and then closing rewrites the placeholder into
a byte-for-byte identical header, and the finalized frame counter equals
the number of samples actually written. -/
theorem header_roundtrip (sampwidth framerate N : ℕ) (frames : List ℚ)
    (hw : sampwidth = 1 ∨ sampwidth = 2) (hN : frames.length = N) :
    ((WaveWriter.init 1 sampwidth framerate (some N)).write
        frames).fileBytes.take 44 = writeHeader 1 sampwidth framerate N ∧
    (writeHeader 1 sampwidth framerate N).drop 40 =
      le32 (1 * sampwidth * N) ∧
    (((WaveWriter.init 1 sampwidth framerate none).write
        frames).close).fileBytes.take 44 =
      ((WaveWriter.init 1 sampwidth framerate (some N)).write
        frames).fileBytes.take 44 ∧
    (((WaveWriter.init 1 sampwidth framerate none).write
        frames).close).nframeswritten = N := by
  have hw0 : 0 < sampwidth := by omega
  have hpay : ∀ (l : List ℤ),
      (l.flatMap (encodeSample sampwidth)).length = l.length * sampwidth := by
    intro l
    induction l with
    | nil => simp
    | cons x xs ih =>
        rw [List.flatMap_cons, List.length_append, ih]
        rcases hw with h | h <;> subst h <;> simp [encodeSample] <;> omega
  have hlen : ∀ (g : ℚ → ℤ),
      ((frames.map g).flatMap (encodeSample sampwidth)).length =
        N * sampwidth := by
    intro g
    rw [hpay, List.length_map, hN]
  have hcount : (((WaveWriter.init 1 sampwidth framerate none).write
      frames).close).nframeswritten = N := by
    simp [WaveWriter.init, WaveWriter.write, WaveWriter.writeraw,
      WaveWriter.close, hlen, Nat.mul_div_cancel _ hw0]
  have htake : ∀ (h : List ℕ) (tail : List ℕ), h.length = 44 →
      (h ++ tail).take 44 = h := by
    intro h tail hh
    rw [← hh, List.take_left]
  have hdrop : ∀ (h : List ℕ) (tail : List ℕ), h.length = 44 →
      (h ++ tail).drop 44 = tail := by
    intro h tail hh
    rw [← hh, List.drop_left]
  refine ⟨?_, rfl, ?_, hcount⟩
  · simp only [WaveWriter.init, WaveWriter.write, WaveWriter.writeraw]
    exact htake _ _ (writeHeader_length 1 sampwidth framerate N)
  · simp only [WaveWriter.init, WaveWriter.write, WaveWriter.writeraw,
      WaveWriter.ratio, WaveWriter.close, hlen, Nat.mul_div_cancel _ hw0,
      Nat.zero_add, writeHeader_length]
    rw [hdrop _ _ (writeHeader_length 0 0 0 0),
      htake _ _ (writeHeader_length 1 sampwidth framerate N)]

/-- Claim C6 (witness): two samples at width 2 and frame rate 44100. -/
theorem header_roundtrip_witness :
    ((2 = 1 ∨ 2 = 2) ∧ ([(1 : ℚ) / 2, -(1 / 2)] : List ℚ).length = 2) ∧
    (((WaveWriter.init 1 2 44100 (some 2)).write
        [(1 : ℚ) / 2, -(1 / 2)]).fileBytes.take 44 =
          writeHeader 1 2 44100 2 ∧
      (writeHeader 1 2 44100 2).drop 40 = le32 (1 * 2 * 2) ∧
      (((WaveWriter.init 1 2 44100 none).write
          [(1 : ℚ) / 2, -(1 / 2)]).close).fileBytes.take 44 =
        ((WaveWriter.init 1 2 44100 (some 2)).write
          [(1 : ℚ) / 2, -(1 / 2)]).fileBytes.take 44 ∧
      (((WaveWriter.init 1 2 44100 none).write
          [(1 : ℚ) / 2, -(1 / 2)]).close).nframeswritten = 2) :=
  ⟨⟨by decide, by decide⟩,
    header_roundtrip 2 44100 2 [(1 : ℚ) / 2, -(1 / 2)] (by decide) (by decide)⟩

/-- Claim C2 (counterexample): the claim says `add`/`mult` over finite
inputs of differing lengths produce exactly `min`-many outputs,
terminating as soon as the first input is exhausted. In the source,
`add([1,2], [3,4,5])` yields `4`, `6` and then a third value `5` (the
round in which the first iterator raised `StopIteration` still yields
the partial sum of the survivors), and the resumption after that third
yield executes `iters.remove(it)` on a tuple, raising an uncaught
`AttributeError` — so the run neither stops at length `min = 2` nor
terminates normally. Likewise for `mult`. -/
theorem add_mult_shortest_wins_claim_false :
    add [[1, 2], [3, 4, 5]] = ([4, 6, 5], true) ∧
    minLen [[1, 2], [3, 4, 5]] = 2 ∧
    (add [[1, 2], [3, 4, 5]]).1.length ≠ 2 ∧
    mult [[2, 3], [4, 5, 6]] = ([8, 15, 6], true) ∧
    (mult [[2, 3], [4, 5, 6]]).1.length ≠ 2 := by
  have e1 : add [[1, 2], [3, 4, 5]] = ([4, 6, 5], true) := by
    norm_num [add, minLen, combineRunFuel, roundVal]
  have e2 : mult [[2, 3], [4, 5, 6]] = ([8, 15, 6], true) := by
    norm_num [mult, minLen, combineRunFuel, roundVal]
  refine ⟨e1, by norm_num [minLen], by rw [e1]; decide, e2,
    by rw [e2]; decide⟩

/-- Claim C2 (amended): on a nonempty tuple of finite iterators,
`add`/`mult` yield one value per round for rounds `0 .. minLen`: each
yielded value combines (sum resp. product) the round's element of every
input that still has one, so the first `minLen` values are full
pointwise sums/products and the value of round `minLen` aggregates only
the surviving inputs; the run then raises `AttributeError` (from
`iters.remove` on a tuple) instead of terminating normally, having
produced `minLen + 1` values, not `minLen`. Over all-infinite inputs
(observed through length-`fuel` prefixes for any `fuel`) the loop is
still running after `fuel` rounds with `fuel` values yielded and no
crash: it never terminates. -/
theorem add_mult_behavior_amended (its : List (List ℚ))
    (fs : List (ℕ → ℚ)) (fuel : ℕ) (h : its ≠ []) (hfs : fs ≠ []) :
    add its = ((List.range (minLen its + 1)).map
        (fun k => (its.map fun s => s.getD k 0).sum), true) ∧
    mult its = ((List.range (minLen its + 1)).map
        (fun k => (its.map fun s => s.getD k 1).prod), true) ∧
    (combineRunFuel 0 (· + ·) fuel
        (fs.map fun f => (List.range fuel).map f)).2 = false ∧
    (combineRunFuel 0 (· + ·) fuel
        (fs.map fun f => (List.range fuel).map f)).1.length = fuel ∧
    (combineRunFuel 1 (· * ·) fuel
        (fs.map fun f => (List.range fuel).map f)).2 = false ∧
    (combineRunFuel 1 (· * ·) fuel
        (fs.map fun f => (List.range fuel).map f)).1.length = fuel := by
  have hlen : ∀ s ∈ (fs.map fun f => (List.range fuel).map f),
      fuel ≤ s.length := by
    intro s hs
    obtain ⟨f, hf, rfl⟩ := List.mem_map.mp hs
    simp
  have hne2 : (fs.map fun f => (List.range fuel).map f) ≠ [] := by
    intro hc
    exact hfs (List.map_eq_nil_iff.mp hc)
  have halive_add := combineRunFuel_alive 0 (· + ·) fuel _ hne2 hlen
  have halive_mult := combineRunFuel_alive 1 (· * ·) fuel _ hne2 hlen
  refine ⟨?_, ?_, halive_add.1, halive_add.2, halive_mult.1,
    halive_mult.2⟩
  · rw [add, combineRunFuel_spec 0 (· + ·) (minLen its + 1) its h (by omega)]
    refine congrArg (fun l => (l, true)) (List.map_congr_left ?_)
    intro k _
    exact roundVal_add_drop its k
  · rw [mult, combineRunFuel_spec 1 (· * ·) (minLen its + 1) its h (by omega)]
    refine congrArg (fun l => (l, true)) (List.map_congr_left ?_)
    intro k _
    exact roundVal_mult_drop its k

/-- Claim C2 (witness): iterators `[1]` and `[2, 3]` (minimum length 1)
and one infinite input observed up to 2 samples. -/
theorem add_mult_behavior_amended_witness :
    (([[1], [2, 3]] : List (List ℚ)) ≠ [] ∧
      ([fun _ => (0 : ℚ)] : List (ℕ → ℚ)) ≠ []) ∧
    (add [[1], [2, 3]] = ((List.range (minLen [[1], [2, 3]] + 1)).map
        (fun k => (([[1], [2, 3]] : List (List ℚ)).map
          fun s => s.getD k 0).sum), true) ∧
     mult [[1], [2, 3]] = ((List.range (minLen [[1], [2, 3]] + 1)).map
        (fun k => (([[1], [2, 3]] : List (List ℚ)).map
          fun s => s.getD k 1).prod), true) ∧
     (combineRunFuel 0 (· + ·) 2
        (([fun _ => (0 : ℚ)] : List (ℕ → ℚ)).map
          fun f => (List.range 2).map f)).2 = false ∧
     (combineRunFuel 0 (· + ·) 2
        (([fun _ => (0 : ℚ)] : List (ℕ → ℚ)).map
          fun f => (List.range 2).map f)).1.length = 2 ∧
     (combineRunFuel 1 (· * ·) 2
        (([fun _ => (0 : ℚ)] : List (ℕ → ℚ)).map
          fun f => (List.range 2).map f)).2 = false ∧
     (combineRunFuel 1 (· * ·) 2
        (([fun _ => (0 : ℚ)] : List (ℕ → ℚ)).map
          fun f => (List.range 2).map f)).1.length = 2) :=
  ⟨⟨by simp, by simp⟩,
    add_mult_behavior_amended [[1], [2, 3]] [fun _ => (0 : ℚ)] 2
      (by simp) (by simp)⟩

end Genwav
